import Mathlib

/-
Verification of the retrieval-and-context-assembly core of the AI-Powered-Agent
repository. Python strings are modeled as `List Char` (Python `len` counts code
points, as does `List.length` on the char list of a Lean string), machine
integers and timestamps as `Int`/`Nat`, floats that only flow through
comparisons as `ℚ`, and fallible external calls as `Option`.

Sections:
  1. Text chunker            — src/storage/document_loader.py, chunk_text
  2. Prompt builder          — src/memory_manager/prompt_builder.py
  3. Context retriever       — src/memory_manager/context_retriever.py
  4. Sessions                — src/dialog_controller/{user_context,session_manager}.py
-/

/- ======================================================================
   1. Text chunker (DocumentLoader.chunk_text)
   ====================================================================== -/

/-- Python `str.strip()` whitespace set, i.e. the characters for which
`str.isspace()` holds: the ASCII whitespace (tab, newline, vertical tab, form
feed, carriage return, space), the information separators U+001C-U+001F, next
line U+0085, no-break space U+00A0, ogham space mark U+1680, the typographic
spaces U+2000-U+200A, the line and paragraph separators U+2028 and U+2029, the
narrow no-break space U+202F, the medium mathematical space U+205F and the
ideographic space U+3000. -/
def pyIsSpace (c : Char) : Bool :=
  c = ' ' || c = '\t' || c = '\n' || c = '\x0d' || c = '\x0b' || c = '\x0c' ||
  c.toNat = 0x1c || c.toNat = 0x1d || c.toNat = 0x1e || c.toNat = 0x1f ||
  c.toNat = 0x85 || c.toNat = 0xa0 || c.toNat = 0x1680 ||
  (0x2000 <= c.toNat && c.toNat <= 0x200a) ||
  c.toNat = 0x2028 || c.toNat = 0x2029 || c.toNat = 0x202f ||
  c.toNat = 0x205f || c.toNat = 0x3000

/-- Python `s.strip()`: remove leading and trailing whitespace. -/
def pyStrip (l : List Char) : List Char :=
  ((l.dropWhile pyIsSpace).reverse.dropWhile pyIsSpace).reverse

/-- Index of the first occurrence of `sep` in `s`, if any (`str.find`). -/
def findSub? (sep : List Char) : List Char → Option Nat
  | [] => if sep.isPrefixOf ([] : List Char) then some 0 else none
  | c :: t =>
    if sep.isPrefixOf (c :: t) then some 0
    else (findSub? sep t).map (· + 1)

/-- Python `sep in text` (substring containment) for nonempty `sep`. -/
def hasSub (s sep : List Char) : Bool :=
  (findSub? sep s).isSome

/-- Python `s.split(sep)` for a nonempty separator, written with explicit fuel;
each step consumes at least one character, so fuel `s.length + 1` is enough. -/
def splitOnSubF (sep : List Char) : Nat → List Char → List (List Char)
  | 0, s => [s]
  | fuel + 1, s =>
    match findSub? sep s with
    | none => [s]
    | some i => s.take i :: splitOnSubF sep fuel (s.drop (i + sep.length))

/-- Python `s.split(sep)` for nonempty `sep`. -/
def splitOnSub (s sep : List Char) : List (List Char) :=
  splitOnSubF sep (s.length + 1) s

/-- The hard-slicing fallback of `chunk_text`:
`for i in range(0, len(text), chunk_size - overlap): result.append(text[i:i+chunk_size])`.
For positive `step`, `range(0, n, step)` enumerates the `⌈n/step⌉` indices
`0, step, 2*step, …`; callers guarantee `overlap < chunk_size`. -/
def hardSlice (chunkSize overlap : Nat) (text : List Char) : List (List Char) :=
  let step := chunkSize - overlap
  (List.range' 0 ((text.length + step - 1) / step) step).map
    (fun i => (text.drop i).take chunkSize)

/-- The `for part in parts` accumulation loop inside `split_recursive`.
`recur` is the handler for an oversized part: recursion into the remaining
separators when some remain, hard slicing otherwise. Note the faithful quirk
`part + sep if part != parts[-1] else part`: the separator is withheld from any
part that merely EQUALS the final part by value. -/
def partsLoop (chunkSize : Nat) (sep lastPart : List Char)
    (recur : List Char → List (List Char)) :
    List (List Char) → List (List Char) → List Char → List (List Char)
  | [], result, current =>
    if current ≠ [] then result ++ [pyStrip current] else result
  | p :: ps, result, current =>
    let pws := if p ≠ lastPart then p ++ sep else p
    if current.length + pws.length ≤ chunkSize then
      partsLoop chunkSize sep lastPart recur ps result (current ++ pws)
    else
      let result1 := if current ≠ [] then result ++ [pyStrip current] else result
      if chunkSize < pws.length then
        partsLoop chunkSize sep lastPart recur ps (result1 ++ recur pws) []
      else
        partsLoop chunkSize sep lastPart recur ps result1 pws

/-- The inner `split_recursive(text, seps)` of `chunk_text`, with explicit fuel.
Every recursive call passes a strict suffix of `seps`, so any fuel exceeding
the number of separator levels is enough; the fuel-0 branch is dead code. -/
def splitRecF (chunkSize overlap : Nat) : Nat → List (List Char) → List Char → List (List Char)
  | 0, _, _ => []
  | fuel + 1, seps, text =>
    if text = [] then []
    else if text.length ≤ chunkSize then [text]
    else
      match seps with
      | [] => hardSlice chunkSize overlap text
      | sep :: rest =>
        if hasSub text sep then
          let parts := splitOnSub text sep
          partsLoop chunkSize sep (parts.getLastD [])
            (fun pws =>
              if rest ≠ [] then splitRecF chunkSize overlap fuel rest pws
              else hardSlice chunkSize overlap pws)
            parts [] []
        else
          splitRecF chunkSize overlap fuel rest text

/-- The priority-ordered separator list of `chunk_text`. -/
def separators : List (List Char) :=
  [['\n', '\n'], ['\n'], ['.', ' '], ['!', ' '], ['?', ' '], [';', ' '], [',', ' '], [' ']]

/-- DocumentLoader.chunk_text: early return for short inputs, recursive
separator splitting otherwise, then `[c for c in chunks if c.strip()]`. -/
def chunk_text (text : List Char) (chunkSize overlap : Nat) : List (List Char) :=
  if text.length ≤ chunkSize then [text]
  else
    (splitRecF chunkSize overlap (separators.length + 1) separators text).filter
      (fun c => !(pyStrip c).isEmpty)

/- ======================================================================
   2. Prompt builder (PromptBuilder.build_context_from_documents)
   ====================================================================== -/

/-- The three fields of a retrieved-document dict that
`build_context_from_documents` reads (`doc.get('text','')`,
`doc.get('source','unknown')`, `doc.get('relevance',0)`). The float formatting
`{relevance:.2f}` is abstracted as the already-rendered string `relevance`,
since only its character contribution matters to the builder. -/
structure PromptDoc where
  text : List Char
  source : List Char
  relevance : List Char
deriving DecidableEq

/-- The rendered block
`f"Документ {i} (Источник: {source}, Релевантность: {relevance:.2f}):\n{text}\n"`. -/
def docBlock (i : Nat) (d : PromptDoc) : List Char :=
  "Документ ".data ++ (toString i).data ++ " (Источник: ".data ++ d.source
    ++ ", Релевантность: ".data ++ d.relevance ++ "):\n".data ++ d.text ++ "\n".data

/-- The accumulation loop of `build_context_from_documents`: stop the moment
appending the next rendered block would push `total_length` past the budget
(`if total_length + len(doc_text) > max_context_length: break`). -/
def buildLoop (maxContextLength : Nat) :
    List PromptDoc → Nat → Nat → List (List Char) → List (List Char)
  | [], _, _, parts => parts
  | d :: ds, i, total, parts =>
    let docText := docBlock i d
    if maxContextLength < total + docText.length then parts
    else buildLoop maxContextLength ds (i + 1) (total + docText.length) (parts ++ [docText])

/-- Python `sep.join(parts)`. -/
def pyJoin (sep : List Char) : List (List Char) → List Char
  | [] => []
  | [x] => x
  | x :: y :: rest => x ++ sep ++ pyJoin sep (y :: rest)

/-- The join separator `"\n---\n"` (5 characters). -/
def contextSeparator : List Char := "\n---\n".data

/-- The fixed placeholder returned for an empty document list. -/
def noContextPlaceholder : List Char := "Контекст отсутствует.".data

/-- PromptBuilder.build_context_from_documents. -/
def build_context_from_documents (maxContextLength : Nat) (documents : List PromptDoc) :
    List Char :=
  if documents = [] then noContextPlaceholder
  else pyJoin contextSeparator (buildLoop maxContextLength documents 1 0 [])

/- ======================================================================
   3. Context retriever (ContextRetriever.retrieve, retrieve_with_threshold)
   ====================================================================== -/

/-- A metadata dict as stored in the index; `.get(key, default)` reads are
modeled with `Option` fields. -/
structure SearchMeta where
  source : Option String
  type : Option String
  chunk_id : Option Nat
deriving DecidableEq

/-- The per-query slice of the index response: the code reads
`results['documents'][0]`, `results['metadatas'][0]`, `results['distances'][0]`
(the adapter answers one query at a time), zipped positionally. Distances are
modeled as rationals: only comparisons and `1 - d` are performed on them. -/
structure SearchResults where
  documents : List String
  metadatas : List SearchMeta
  distances : List ℚ
deriving DecidableEq

/-- One formatted retrieval hit. -/
structure RetrievedDoc where
  text : String
  source : String
  type : String
  chunk_id : Nat
  relevance : ℚ
  distance : ℚ
deriving DecidableEq

/-- The formatting loop of `retrieve`: guarded by
`if results['documents'] and results['documents'][0]`, then
`zip(documents[0], metadatas[0], distances[0])` (truncating at the shortest),
with `'relevance': 1 - distance`. -/
def formatResults (r : SearchResults) : List RetrievedDoc :=
  if r.documents.isEmpty then []
  else
    (r.documents.zip (r.metadatas.zip r.distances)).map
      (fun x =>
        { text := x.1
          source := x.2.1.source.getD "unknown"
          type := x.2.1.type.getD "unknown"
          chunk_id := x.2.1.chunk_id.getD 0
          relevance := 1 - x.2.2
          distance := x.2.2 })

/-- ContextRetriever.retrieve over one underlying index response; `none`
stands for the adapter call raising, handled by
`except Exception: … return []`. -/
def retrieve (response : Option SearchResults) : List RetrievedDoc :=
  match response with
  | some r => formatResults r
  | none => []

/-- ContextRetriever.retrieve_with_threshold over the same underlying
response: `[doc for doc in documents if doc.get('relevance', 0) >= relevance_threshold]`. -/
def retrieve_with_threshold (response : Option SearchResults)
    (relevance_threshold : ℚ) : List RetrievedDoc :=
  (retrieve response).filter (fun d => relevance_threshold ≤ d.relevance)

/- ======================================================================
   4. Sessions (UserContext, SessionManager)
   ====================================================================== -/

/-- One history entry appended by `add_message`; the
`datetime.now().isoformat()` timestamp is modeled as the clock value itself
(ISO-8601 text round-trips a datetime exactly). -/
structure Message where
  role : String
  content : String
  timestamp : Int
deriving DecidableEq

/-- UserContext.__init__ state. Clock values (`datetime.now()`) are passed
explicitly as `Int` timestamps. -/
structure UserContext where
  user_id : String
  created_at : Int
  last_activity : Int
  conversation_history : List Message
  metadata : List (String × String)
  state : String
  message_count : Nat
deriving DecidableEq

/-- UserContext.__init__. -/
def UserContext.init (uid : String) (now : Int) : UserContext :=
  { user_id := uid
    created_at := now
    last_activity := now
    conversation_history := []
    metadata := []
    state := "active"
    message_count := 0 }

/-- UserContext.add_message: append to history, increment `message_count`,
refresh `last_activity`. -/
def UserContext.add_message (c : UserContext) (role content : String) (now : Int) :
    UserContext :=
  { c with
    conversation_history :=
      c.conversation_history ++ [{ role := role, content := content, timestamp := now }]
    message_count := c.message_count + 1
    last_activity := now }

/-- UserContext.clear_conversation_history: reset the history only. -/
def UserContext.clear_conversation_history (c : UserContext) : UserContext :=
  { c with conversation_history := [] }

/-- UserContext.is_expired: `datetime.now() - self.last_activity > timeout_delta`. -/
def UserContext.is_expired (c : UserContext) (now : Int) (timeout_seconds : Int) : Bool :=
  timeout_seconds < now - c.last_activity

/-- The `self.sessions` dict, as an association list with unique keys in every
reachable state. -/
structure SessionManager where
  sessions : List (String × UserContext)
  session_timeout : Int
deriving DecidableEq

/-- Dict lookup `self.sessions.get(user_id)`. -/
def lookupSession (sessions : List (String × UserContext)) (uid : String) :
    Option UserContext :=
  match sessions with
  | [] => none
  | (k, v) :: rest => if k = uid then some v else lookupSession rest uid

/-- Dict assignment `self.sessions[user_id] = c`: replace in place, or append. -/
def storeSession (sessions : List (String × UserContext)) (uid : String)
    (c : UserContext) : List (String × UserContext) :=
  match sessions with
  | [] => [(uid, c)]
  | (k, v) :: rest =>
    if k = uid then (k, c) :: rest else (k, v) :: storeSession rest uid c

/-- Dict deletion `del self.sessions[user_id]`. -/
def eraseSession (sessions : List (String × UserContext)) (uid : String) :
    List (String × UserContext) :=
  match sessions with
  | [] => []
  | (k, v) :: rest => if k = uid then rest else (k, v) :: eraseSession rest uid

/-- SessionManager.get_or_create_session at clock value `now`: a non-expired
hit gets `last_activity` refreshed (in-place mutation of the stored object,
modeled by storing the refreshed value back); an expired hit is deleted and
replaced by a fresh context; a miss creates a fresh context. -/
def get_or_create_session (m : SessionManager) (uid : String) (now : Int) :
    UserContext × SessionManager :=
  match lookupSession m.sessions uid with
  | some session =>
    if !(session.is_expired now m.session_timeout) then
      let refreshed := { session with last_activity := now }
      (refreshed, { m with sessions := storeSession m.sessions uid refreshed })
    else
      let fresh := UserContext.init uid now
      (fresh, { m with sessions := storeSession (eraseSession m.sessions uid) uid fresh })
  | none =>
    let fresh := UserContext.init uid now
    (fresh, { m with sessions := storeSession m.sessions uid fresh })

/-- The per-user record serialized by `_save_sessions`:
`{'conversation_history': …, 'last_activity': iso}`. -/
structure SavedSession where
  conversation_history : List Message
  last_activity : Int
deriving DecidableEq

/-- SessionManager._save_sessions: serialize the two fields of every current
session (the whole-file JSON write is modeled by its content). -/
def save_sessions (m : SessionManager) : List (String × SavedSession) :=
  m.sessions.map (fun kv =>
    (kv.1, { conversation_history := kv.2.conversation_history
             last_activity := kv.2.last_activity }))

/-- SessionManager._load_sessions into a fresh instance at load-clock `now`:
`UserContext(user_id)` then overwrite `conversation_history` and
`last_activity` (via `datetime.fromisoformat`, which inverts `isoformat`). -/
def load_sessions (data : List (String × SavedSession)) (now : Int)
    (timeout : Int) : SessionManager :=
  { sessions := data.map (fun kv =>
      (kv.1, { UserContext.init kv.1 now with
                conversation_history := kv.2.conversation_history
                last_activity := kv.2.last_activity }))
    session_timeout := timeout }

/-- The two history-mutating operations a claim quantifies over. -/
inductive HistoryOp
  | add (role content : String) (now : Int)
  | clear
deriving DecidableEq

/-- Apply one history operation to a context. -/
def applyOp (c : UserContext) : HistoryOp → UserContext
  | .add role content now => c.add_message role content now
  | .clear => c.clear_conversation_history

/-- Apply a sequence of history operations in order. -/
def runOps (c : UserContext) (ops : List HistoryOp) : UserContext :=
  ops.foldl applyOp c

/-- Number of `add_message` calls in a sequence of operations. -/
def countAdds (ops : List HistoryOp) : Nat :=
  (ops.filter fun op => match op with | .add .. => true | .clear => false).length

/- ======================================================================
   Helper lemmas: chunker
   ====================================================================== -/

lemma mem_of_hasSub (s sep : List Char) (h : hasSub s sep = true) :
    ∀ c ∈ sep, c ∈ s := by
  induction s with
  | nil =>
    intro c hc
    unfold hasSub findSub? at h
    split at h
    · rename_i hpre
      have : sep <+: ([] : List Char) := List.isPrefixOf_iff_prefix.mp hpre
      have : sep = [] := List.prefix_nil.mp this
      subst this
      simp at hc
    · simp at h
  | cons a t ih =>
    intro c hc
    unfold hasSub findSub? at h
    split at h
    · rename_i hpre
      exact (List.isPrefixOf_iff_prefix.mp hpre).subset hc
    · have ht : hasSub t sep = true := by
        unfold hasSub
        cases hfind : findSub? sep t with
        | none => rw [hfind] at h; simp at h
        | some i => simp [hfind]
      exact List.mem_cons_of_mem a (ih ht c hc)

lemma hasSub_eq_false (s sep : List Char) (c : Char) (hc : c ∈ sep) (hs : c ∉ s) :
    hasSub s sep = false := by
  cases h : hasSub s sep with
  | false => rfl
  | true => exact absurd (mem_of_hasSub s sep h c hc) hs

lemma splitRecF_skip (chunkSize overlap fuel : Nat) (sep : List Char)
    (rest : List (List Char)) (text : List Char)
    (hne : text ≠ []) (hgt : chunkSize < text.length)
    (hsub : hasSub text sep = false) :
    splitRecF chunkSize overlap (fuel + 1) (sep :: rest) text =
      splitRecF chunkSize overlap fuel rest text := by
  conv_lhs => rw [splitRecF]
  rw [if_neg hne, if_neg (by omega)]
  simp only [hsub, Bool.false_eq_true, if_false]

lemma splitRecF_last (chunkSize overlap fuel : Nat) (text : List Char)
    (hne : text ≠ []) (hgt : chunkSize < text.length) :
    splitRecF chunkSize overlap (fuel + 1) [] text = hardSlice chunkSize overlap text := by
  conv_lhs => rw [splitRecF]
  rw [if_neg hne, if_neg (by omega)]

lemma dropWhile_eq_self_of_all (p : Char → Bool) (l : List Char)
    (h : ∀ c ∈ l, p c = false) : l.dropWhile p = l := by
  cases l with
  | nil => rfl
  | cons a t =>
    rw [List.dropWhile_cons, if_neg]
    simp [h a (List.mem_cons_self a t)]

lemma pyStrip_eq_self_of_all (l : List Char) (h : ∀ c ∈ l, pyIsSpace c = false) :
    pyStrip l = l := by
  unfold pyStrip
  rw [dropWhile_eq_self_of_all pyIsSpace l h,
    dropWhile_eq_self_of_all pyIsSpace l.reverse (by intro c hc; exact h c (List.mem_reverse.mp hc)),
    List.reverse_reverse]

lemma pyStrip_eq_nil_of_all (l : List Char) (h : ∀ c ∈ l, pyIsSpace c = true) :
    pyStrip l = [] := by
  unfold pyStrip
  have h1 : l.dropWhile pyIsSpace = [] :=
    List.dropWhile_eq_nil_iff.mpr (fun x hx => h x hx)
  rw [h1]
  simp

lemma chunk_text_no_sep (text : List Char) (chunkSize overlap : Nat)
    (hgt : chunkSize < text.length)
    (hsubs : ∀ sep ∈ separators, hasSub text sep = false) :
    chunk_text text chunkSize overlap =
      (hardSlice chunkSize overlap text).filter (fun c => !(pyStrip c).isEmpty) := by
  have hne : text ≠ [] := by
    intro h
    rw [h] at hgt
    simp at hgt
  unfold chunk_text
  rw [if_neg (by omega)]
  have h1 := hsubs ['\n', '\n'] (by simp [separators])
  have h2 := hsubs ['\n'] (by simp [separators])
  have h3 := hsubs ['.', ' '] (by simp [separators])
  have h4 := hsubs ['!', ' '] (by simp [separators])
  have h5 := hsubs ['?', ' '] (by simp [separators])
  have h6 := hsubs [';', ' '] (by simp [separators])
  have h7 := hsubs [',', ' '] (by simp [separators])
  have h8 := hsubs [' '] (by simp [separators])
  show (splitRecF chunkSize overlap 9 separators text).filter _ = _
  unfold separators
  rw [splitRecF_skip _ _ _ _ _ _ hne hgt h1, splitRecF_skip _ _ _ _ _ _ hne hgt h2,
    splitRecF_skip _ _ _ _ _ _ hne hgt h3, splitRecF_skip _ _ _ _ _ _ hne hgt h4,
    splitRecF_skip _ _ _ _ _ _ hne hgt h5, splitRecF_skip _ _ _ _ _ _ hne hgt h6,
    splitRecF_skip _ _ _ _ _ _ hne hgt h7, splitRecF_skip _ _ _ _ _ _ hne hgt h8,
    splitRecF_last _ _ _ _ hne hgt]

/- ======================================================================
   Claims C2 and C3
   ====================================================================== -/

/-- C2 as stated is false: for a short input, `chunk_text` returns the input
itself as the single chunk WITHOUT trimming; at `" a "` (length 3 ≤ 500,
overlap 100 < 500) the returned chunk differs from the trimmed input `"a"`. -/
theorem C2_counterexample :
    chunk_text " a ".data 500 100 = [" a ".data] ∧
      [" a ".data] ≠ [pyStrip " a ".data] := by
  decide

/-- C2 (amended): for every text with `len(text) ≤ chunk_size`, `chunk_text`
returns exactly one chunk equal to the UNtrimmed input text. -/
theorem C2_amended_single_chunk (text : List Char) (chunkSize overlap : Nat)
    (h : text.length ≤ chunkSize) :
    chunk_text text chunkSize overlap = [text] := by
  unfold chunk_text
  rw [if_pos h]

/-- Witness for C2: the amended theorem applied at a concrete input. -/
theorem C2_amended_single_chunk_witness :
    chunk_text "ab".data 500 100 = ["ab".data] :=
  C2_amended_single_chunk "ab".data 500 100 (by decide)

/-- C3 as stated is false: `chunk_text` on the empty string hits the early
`len(text) <= chunk_size` return and yields `[""]`, not an empty sequence
(the empty-chunk filter runs only on the long-input path). -/
theorem C3_counterexample :
    chunk_text ([] : List Char) 500 100 = [[]] ∧
      ([[]] : List (List Char)) ≠ [] := by
  decide

/-- C3 (amended): for every `chunk_size` and `overlap`, `chunk_text` on the
empty string returns the one-element list holding the empty chunk. -/
theorem C3_amended_empty_input (chunkSize overlap : Nat) :
    chunk_text ([] : List Char) chunkSize overlap = [[]] := by
  unfold chunk_text
  rw [if_pos (by simp)]

/- ======================================================================
   Helper lemmas: prompt builder
   ====================================================================== -/

lemma pyJoin_length (sep : List Char) (xs : List (List Char)) :
    (pyJoin sep xs).length = (xs.map List.length).sum + sep.length * (xs.length - 1) := by
  induction xs with
  | nil => simp [pyJoin]
  | cons x t ih =>
    cases t with
    | nil => simp [pyJoin]
    | cons y ys =>
      show (x ++ sep ++ pyJoin sep (y :: ys)).length = _
      rw [List.length_append, List.length_append, ih]
      simp only [List.map_cons, List.sum_cons, List.length_cons, Nat.add_sub_cancel,
        Nat.succ_sub_one, Nat.mul_succ]
      omega

lemma buildLoop_bound (maxLen : Nat) (ds : List PromptDoc) :
    ∀ (i total : Nat) (parts : List (List Char)),
      (parts.map List.length).sum ≤ total → total ≤ maxLen →
      ((buildLoop maxLen ds i total parts).map List.length).sum ≤ maxLen ∧
        (buildLoop maxLen ds i total parts).length ≤ parts.length + ds.length := by
  induction ds with
  | nil =>
    intro i total parts hsum htot
    exact ⟨le_trans hsum htot, by simp [buildLoop]⟩
  | cons d ds ih =>
    intro i total parts hsum htot
    have hstep : buildLoop maxLen (d :: ds) i total parts =
        if maxLen < total + (docBlock i d).length then parts
        else buildLoop maxLen ds (i + 1) (total + (docBlock i d).length)
          (parts ++ [docBlock i d]) := rfl
    rw [hstep]
    split
    · exact ⟨le_trans hsum htot, by omega⟩
    · rename_i hfit
      have hfit2 : total + (docBlock i d).length ≤ maxLen := by omega
      have hres := ih (i + 1) (total + (docBlock i d).length) (parts ++ [docBlock i d])
        (by simp; omega) hfit2
      refine ⟨hres.1, ?_⟩
      have := hres.2
      simp only [List.length_append, List.length_cons, List.length_nil] at this ⊢
      omega

/- ======================================================================
   Claims C1 and C10
   ====================================================================== -/

/-- C1 as stated is false: the parts are joined by a 5-character separator PER
GAP, so with three fitting documents (each rendered block 47 characters, budget
exactly 141) the result has length 151 > 141 + 5. -/
theorem C1_counterexample :
    ¬ ((build_context_from_documents 141
        [⟨[], [], "0.00".data⟩, ⟨[], [], "0.00".data⟩, ⟨[], [], "0.00".data⟩]).length
          ≤ 141 + 5) := by
  decide

/-- C1 (amended): for every NON-empty list of documents and every
`max_context_length`, the returned string has length at most
`max_context_length + 5 * (number of documents - 1)`: the accumulated blocks
total at most the budget, and each of the at most `|documents| - 1` joins adds
one 5-character separator. -/
theorem C1_amended_bound (maxContextLength : Nat) (documents : List PromptDoc)
    (h : documents ≠ []) :
    (build_context_from_documents maxContextLength documents).length
      ≤ maxContextLength + 5 * (documents.length - 1) := by
  unfold build_context_from_documents
  rw [if_neg h]
  have hb := buildLoop_bound maxContextLength documents 1 0 [] (by simp) (by simp)
  rw [pyJoin_length]
  have hsep : contextSeparator.length = 5 := by decide
  rw [hsep]
  have hlen : (buildLoop maxContextLength documents 1 0 []).length ≤ documents.length := by
    have := hb.2
    simpa using this
  have : 5 * ((buildLoop maxContextLength documents 1 0 []).length - 1)
      ≤ 5 * (documents.length - 1) :=
    Nat.mul_le_mul_left 5 (Nat.sub_le_sub_right hlen 1)
  omega

/-- Witness for C1: the amended bound applied at one concrete document. -/
theorem C1_amended_bound_witness :
    (build_context_from_documents 141 [⟨[], [], "0.00".data⟩]).length
      ≤ 141 + 5 * ([⟨[], [], "0.00".data⟩] : List PromptDoc).length.pred :=
  C1_amended_bound 141 [⟨[], [], "0.00".data⟩] (by simp)

/-- C10: if the first document's rendered block alone exceeds the budget, the
loop breaks on iteration 1 with no accumulated parts, and the join of the
empty part list is the empty string — distinct from the placeholder, which is
reserved for an empty input list. -/
theorem C10_overlong_first_doc_empty (d : PromptDoc) (ds : List PromptDoc)
    (maxContextLength : Nat) (h : maxContextLength < (docBlock 1 d).length) :
    build_context_from_documents maxContextLength (d :: ds) = [] ∧
      build_context_from_documents maxContextLength (d :: ds) ≠ noContextPlaceholder := by
  unfold build_context_from_documents
  rw [if_neg (by simp)]
  have hstep : buildLoop maxContextLength (d :: ds) 1 0 [] =
      if maxContextLength < 0 + (docBlock 1 d).length then ([] : List (List Char))
      else buildLoop maxContextLength ds 2 (0 + (docBlock 1 d).length) ([] ++ [docBlock 1 d]) :=
    rfl
  rw [hstep, if_pos (by omega)]
  exact ⟨rfl, by decide⟩

/-- Witness for C10: a 50-character text with budget 10. -/
theorem C10_overlong_first_doc_empty_witness :
    build_context_from_documents 10 [⟨List.replicate 50 'x', [], "0.00".data⟩] = [] ∧
      build_context_from_documents 10 [⟨List.replicate 50 'x', [], "0.00".data⟩]
        ≠ noContextPlaceholder :=
  C10_overlong_first_doc_empty ⟨List.replicate 50 'x', [], "0.00".data⟩ [] 10 (by decide)

/- ======================================================================
   Claims C4 and C5
   ====================================================================== -/

/-- C4: over one underlying index response, `retrieve_with_threshold` is a
subsequence of `retrieve` (same elements, same relative order, never
re-sorted), and every returned document clears the relevance threshold. -/
theorem C4_threshold_subsequence (response : Option SearchResults)
    (relevance_threshold : ℚ) :
    (retrieve_with_threshold response relevance_threshold).Sublist (retrieve response) ∧
      ∀ d ∈ retrieve_with_threshold response relevance_threshold,
        relevance_threshold ≤ d.relevance := by
  constructor
  · exact List.filter_sublist (retrieve response)
  · intro d hd
    have := List.of_mem_filter hd
    exact of_decide_eq_true this

/-- Witness for C4: a one-hit response at distance 0 and threshold 1/2. -/
theorem C4_threshold_subsequence_witness :
    (retrieve_with_threshold (some ⟨["a"], [⟨none, none, none⟩], [0]⟩) (1/2)).Sublist
        (retrieve (some ⟨["a"], [⟨none, none, none⟩], [0]⟩)) ∧
      ∀ d ∈ retrieve_with_threshold (some ⟨["a"], [⟨none, none, none⟩], [0]⟩) (1/2),
        (1/2 : ℚ) ≤ d.relevance :=
  C4_threshold_subsequence (some ⟨["a"], [⟨none, none, none⟩], [0]⟩) (1/2)

/-- C5: when the adapter raises, `retrieve` returns the empty sequence; on
success it returns at most as many documents as the index response carries
(the adapter contract bounds that by `n_results`), each formatted with
`relevance = 1 - distance`. -/
theorem C5_retrieve_degrade_and_format :
    retrieve none = [] ∧
      (∀ (r : SearchResults) (n_results : Nat), r.documents.length ≤ n_results →
        (retrieve (some r)).length ≤ n_results) ∧
      (∀ (r : SearchResults), ∀ d ∈ retrieve (some r), d.relevance = 1 - d.distance) := by
  refine ⟨rfl, ?_, ?_⟩
  · intro r n hn
    show (formatResults r).length ≤ n
    unfold formatResults
    split
    · simp
    · rw [List.length_map, List.length_zip]
      exact le_trans (min_le_left _ _) hn
  · intro r d hd
    have hd2 : d ∈ formatResults r := hd
    unfold formatResults at hd2
    split at hd2
    · simp at hd2
    · obtain ⟨x, hx, rfl⟩ := List.mem_map.mp hd2
      rfl

/-- Witness for C5: a two-hit response with `n_results = 5`. -/
theorem C5_retrieve_degrade_and_format_witness :
    retrieve none = [] ∧
      (retrieve (some ⟨["a", "b"], [⟨none, none, none⟩, ⟨none, none, none⟩],
        [0, 1/4]⟩)).length ≤ 5 ∧
      ∀ d ∈ retrieve (some ⟨["a", "b"], [⟨none, none, none⟩, ⟨none, none, none⟩],
        [0, 1/4]⟩), d.relevance = 1 - d.distance := by
  refine ⟨C5_retrieve_degrade_and_format.1, ?_, ?_⟩
  · exact C5_retrieve_degrade_and_format.2.1 _ 5 (by decide)
  · exact C5_retrieve_degrade_and_format.2.2 _

/- ======================================================================
   Helper lemmas: sessions
   ====================================================================== -/

lemma lookup_store (l : List (String × UserContext)) (uid : String) (c : UserContext) :
    lookupSession (storeSession l uid c) uid = some c := by
  induction l with
  | nil => simp [storeSession, lookupSession]
  | cons kv rest ih =>
    obtain ⟨k, v⟩ := kv
    show lookupSession (if k = uid then (k, c) :: rest else (k, v) :: storeSession rest uid c)
        uid = some c
    by_cases h : k = uid
    · rw [if_pos h]
      show (if k = uid then some c else _) = some c
      rw [if_pos h]
    · rw [if_neg h]
      show (if k = uid then some v else lookupSession (storeSession rest uid c) uid) = some c
      rw [if_neg h, ih]

lemma getOrCreate_last_activity (m : SessionManager) (uid : String) (t : Int) :
    (get_or_create_session m uid t).1.last_activity = t := by
  unfold get_or_create_session
  cases lookupSession m.sessions uid with
  | none => rfl
  | some s =>
    by_cases h : s.is_expired t m.session_timeout
    · simp [h, UserContext.init]
    · simp [h]

lemma getOrCreate_stored (m : SessionManager) (uid : String) (t : Int) :
    lookupSession (get_or_create_session m uid t).2.sessions uid =
      some (get_or_create_session m uid t).1 := by
  unfold get_or_create_session
  cases lookupSession m.sessions uid with
  | none => exact lookup_store ..
  | some s =>
    by_cases h : s.is_expired t m.session_timeout
    · simp only [h, Bool.not_true, Bool.false_eq_true, if_false]
      exact lookup_store ..
    · simp only [h, Bool.not_false, if_true]
      exact lookup_store ..

lemma getOrCreate_timeout (m : SessionManager) (uid : String) (t : Int) :
    (get_or_create_session m uid t).2.session_timeout = m.session_timeout := by
  unfold get_or_create_session
  cases lookupSession m.sessions uid with
  | none => rfl
  | some s =>
    by_cases h : s.is_expired t m.session_timeout
    · simp [h]
    · simp [h]

/- ======================================================================
   Claims C6, C7 and C8
   ====================================================================== -/

/-- C6: a second `get_or_create_session` within the timeout window returns the
stored session itself with only `last_activity` refreshed (so its
`message_count` and history carry over unchanged — in particular
non-decreasing); and whenever the stored session satisfies
`now - last_activity > session_timeout`, the call deletes it and returns a
fresh session with `message_count = 0` and empty history, which replaces it in
the store. -/
theorem C6_get_or_create_session_lifecycle (m : SessionManager) (uid : String)
    (t1 t2 : Int) (s1 : UserContext) (m1 : SessionManager)
    (h1 : get_or_create_session m uid t1 = (s1, m1)) :
    (t2 - t1 ≤ m.session_timeout →
      (get_or_create_session m1 uid t2).1 = { s1 with last_activity := t2 } ∧
      (get_or_create_session m1 uid t2).1.message_count = s1.message_count ∧
      (get_or_create_session m1 uid t2).1.conversation_history = s1.conversation_history) ∧
    (∀ s0 : UserContext, lookupSession m.sessions uid = some s0 →
      m.session_timeout < t2 - s0.last_activity →
      (get_or_create_session m uid t2).1.message_count = 0 ∧
      (get_or_create_session m uid t2).1.conversation_history = [] ∧
      lookupSession (get_or_create_session m uid t2).2.sessions uid =
        some (get_or_create_session m uid t2).1) := by
  constructor
  · intro hwin
    have hla : s1.last_activity = t1 := by
      have := getOrCreate_last_activity m uid t1
      rw [h1] at this
      exact this
    have hlook : lookupSession m1.sessions uid = some s1 := by
      have := getOrCreate_stored m uid t1
      rw [h1] at this
      exact this
    have htm : m1.session_timeout = m.session_timeout := by
      have := getOrCreate_timeout m uid t1
      rw [h1] at this
      exact this
    have hexp : s1.is_expired t2 m1.session_timeout = false := by
      unfold UserContext.is_expired
      rw [hla, htm]
      exact decide_eq_false (by omega)
    have hgoal : get_or_create_session m1 uid t2 =
        ({ s1 with last_activity := t2 },
          { m1 with sessions := storeSession m1.sessions uid { s1 with last_activity := t2 } }) := by
      unfold get_or_create_session
      rw [hlook]
      simp [hexp]
    rw [hgoal]
    exact ⟨rfl, rfl, rfl⟩
  · intro s0 h0 hexp
    have hexpb : s0.is_expired t2 m.session_timeout = true := by
      unfold UserContext.is_expired
      exact decide_eq_true (by omega)
    have hgoal : get_or_create_session m uid t2 =
        (UserContext.init uid t2,
          { m with sessions :=
              storeSession (eraseSession m.sessions uid) uid (UserContext.init uid t2) }) := by
      unfold get_or_create_session
      rw [h0]
      simp [hexpb]
    rw [hgoal]
    exact ⟨rfl, rfl, lookup_store ..⟩

/-- Witness for C6: one stored session (timeout 3600, `last_activity` 0); the
first call at clock 5000 finds it expired and creates a fresh session, the
second at clock 6000 is within the window of the first. -/
theorem C6_get_or_create_session_lifecycle_witness :
    ((get_or_create_session ⟨[("u", UserContext.init "u" 5000)], 3600⟩ "u" 6000).1 =
        { UserContext.init "u" 5000 with last_activity := 6000 }) ∧
      (get_or_create_session ⟨[("u", UserContext.init "u" 0)], 3600⟩ "u" 6000).1.message_count
        = 0 ∧
      (get_or_create_session ⟨[("u", UserContext.init "u" 0)], 3600⟩
        "u" 6000).1.conversation_history = [] := by
  have h := C6_get_or_create_session_lifecycle ⟨[("u", UserContext.init "u" 0)], 3600⟩
    "u" 5000 6000 (UserContext.init "u" 5000) ⟨[("u", UserContext.init "u" 5000)], 3600⟩
    (by decide)
  have h2 := h.2 (UserContext.init "u" 0) (by decide) (by decide)
  exact ⟨(h.1 (by decide)).1, h2.1, h2.2.1⟩

/-- C7: after any sequence of `add_message` / `clear_conversation_history`
operations on a fresh context, `message_count` equals the number of
`add_message` calls performed, and no single operation ever decreases it
(clearing the history leaves it unchanged). -/
theorem C7_message_count_invariant (uid : String) (t0 : Int) (ops : List HistoryOp) :
    (runOps (UserContext.init uid t0) ops).message_count = countAdds ops ∧
      ∀ (c : UserContext) (op : HistoryOp),
        c.message_count ≤ (applyOp c op).message_count := by
  constructor
  · have key : ∀ (l : List HistoryOp) (c : UserContext),
        (runOps c l).message_count = c.message_count + countAdds l := by
      intro l
      induction l with
      | nil => intro c; simp [runOps, countAdds]
      | cons op t ih =>
        intro c
        show (runOps (applyOp c op) t).message_count = _
        rw [ih]
        cases op with
        | add role content now =>
          show (c.add_message role content now).message_count + countAdds t = _
          unfold UserContext.add_message countAdds
          simp [List.filter_cons]
          omega
        | clear =>
          show c.message_count + countAdds t = _
          unfold countAdds
          simp [List.filter_cons]
    rw [key ops (UserContext.init uid t0)]
    simp [UserContext.init]
  · intro c op
    cases op with
    | add role content now => exact Nat.le_succ _
    | clear => exact le_refl _

/-- C8: saving every session's `conversation_history` and `last_activity` and
loading the file into a fresh manager reproduces both fields for every
user_id (the ISO-8601 text round-trip of `last_activity` is exact). -/
theorem C8_save_load_roundtrip (m : SessionManager) (loadClock : Int)
    (timeout : Int) (uid : String) :
    Option.map UserContext.conversation_history
        (lookupSession (load_sessions (save_sessions m) loadClock timeout).sessions uid) =
      Option.map UserContext.conversation_history (lookupSession m.sessions uid) ∧
    Option.map UserContext.last_activity
        (lookupSession (load_sessions (save_sessions m) loadClock timeout).sessions uid) =
      Option.map UserContext.last_activity (lookupSession m.sessions uid) := by
  unfold load_sessions save_sessions
  rw [List.map_map]
  induction m.sessions with
  | nil => exact ⟨rfl, rfl⟩
  | cons kv rest ih =>
    obtain ⟨k, v⟩ := kv
    by_cases h : k = uid
    · subst h
      simp [lookupSession]
    · simp only [List.map_cons, Function.comp]
      show (Option.map _ (if k = uid then _ else _) = Option.map _ (if k = uid then _ else _) ∧
        Option.map _ (if k = uid then _ else _) = Option.map _ (if k = uid then _ else _))
      rw [if_neg h, if_neg h]
      exact ih

/- ======================================================================
   Claim C9
   ====================================================================== -/

lemma hardSlice_1200 (text : List Char) (hlen : text.length = 1200) :
    hardSlice 500 100 text =
      [text.take 500, (text.drop 400).take 500, (text.drop 800).take 500] := by
  unfold hardSlice
  rw [hlen]
  norm_num
  rfl

lemma no_ws_no_sep (text : List Char)
    (hsp : (' ' : Char) ∉ text) (hnl : ('\n' : Char) ∉ text) :
    ∀ sep ∈ separators, hasSub text sep = false := by
  intro sep hsep
  simp only [separators, List.mem_cons, List.not_mem_nil, or_false] at hsep
  rcases hsep with h | h | h | h | h | h | h | h <;> subst h
  · exact hasSub_eq_false _ _ '\n' (by simp) hnl
  · exact hasSub_eq_false _ _ '\n' (by simp) hnl
  · exact hasSub_eq_false _ _ ' ' (by simp) hsp
  · exact hasSub_eq_false _ _ ' ' (by simp) hsp
  · exact hasSub_eq_false _ _ ' ' (by simp) hsp
  · exact hasSub_eq_false _ _ ' ' (by simp) hsp
  · exact hasSub_eq_false _ _ ' ' (by simp) hsp
  · exact hasSub_eq_false _ _ ' ' (by simp) hsp

/-- C9 as stated is false: a 1200-character text of tabs contains none of the
eight separators (shown in the first conjunct), yet `chunk_text` returns NO
chunks, because the final `if c.strip()` filter drops the three all-whitespace
windows. -/
theorem C9_counterexample :
    (List.replicate 1200 '\t').length = 1200 ∧
      (∀ sep ∈ separators, hasSub (List.replicate 1200 '\t') sep = false) ∧
      chunk_text (List.replicate 1200 '\t') 500 100 = [] := by
  have htab : ∀ c ∈ List.replicate 1200 '\t', c = '\t' :=
    fun c hc => List.eq_of_mem_replicate hc
  have hnl : ('\n' : Char) ∉ List.replicate 1200 '\t' := by
    intro hm
    exact absurd (htab '\n' hm) (by decide)
  have hsp : (' ' : Char) ∉ List.replicate 1200 '\t' := by
    intro hm
    exact absurd (htab ' ' hm) (by decide)
  have hsubs := no_ws_no_sep (List.replicate 1200 '\t') hsp hnl
  have hR : (List.replicate 1200 '\t').length = 1200 := List.length_replicate ..
  refine ⟨hR, hsubs, ?_⟩
  rw [chunk_text_no_sep _ 500 100 (by rw [hR]; norm_num) hsubs, hardSlice_1200 _ hR]
  have hdrop : ∀ l : List Char, (∀ c ∈ l, c ∈ List.replicate 1200 '\t') →
      (!(pyStrip l).isEmpty) = false := by
    intro l hsub
    have hstrip : pyStrip l = [] :=
      pyStrip_eq_nil_of_all l (fun c hc => by rw [htab c (hsub c hc)]; rfl)
    rw [hstrip]
    rfl
  have k1 := hdrop ((List.replicate 1200 '\t').take 500)
    (fun c hc => List.take_subset _ _ hc)
  have k2 := hdrop (((List.replicate 1200 '\t').drop 400).take 500)
    (fun c hc => List.drop_subset _ _ (List.take_subset _ _ hc))
  have k3 := hdrop (((List.replicate 1200 '\t').drop 800).take 500)
    (fun c hc => List.drop_subset _ _ (List.take_subset _ _ hc))
  simp only [List.filter_cons, k1, k2, k3, if_false, Bool.false_eq_true, List.filter_nil]

/-- C9 (amended): for a 1200-character text with no whitespace characters at
all (which in particular contains none of the separators), `chunk_text` with
`chunk_size = 500`, `overlap = 100` hard-slices into exactly 3 chunks of
lengths 500, 500 and 400, windows stepping by 400, so each pair of consecutive
chunks shares exactly the 100 characters where the windows overlap. -/
theorem C9_amended_hard_slice (text : List Char) (hlen : text.length = 1200)
    (hws : ∀ c ∈ text, pyIsSpace c = false) :
    chunk_text text 500 100 = [text.take 500, (text.drop 400).take 500, text.drop 800] ∧
      (text.take 500).length = 500 ∧
      ((text.drop 400).take 500).length = 500 ∧
      (text.drop 800).length = 400 ∧
      (text.take 500).drop 400 = ((text.drop 400).take 500).take 100 ∧
      ((text.drop 400).take 500).drop 400 = (text.drop 800).take 100 := by
  have hgt : 500 < text.length := by omega
  have hsp : (' ' : Char) ∉ text := by
    intro hm
    have := hws ' ' hm
    simp [pyIsSpace] at this
  have hnl : ('\n' : Char) ∉ text := by
    intro hm
    have := hws '\n' hm
    simp [pyIsSpace] at this
  have hsubs := no_ws_no_sep text hsp hnl
  have h1len : (text.take 500).length = 500 := by
    rw [List.length_take]
    omega
  have h2len : ((text.drop 400).take 500).length = 500 := by
    rw [List.length_take, List.length_drop]
    omega
  have h3len : (text.drop 800).length = 400 := by
    rw [List.length_drop]
    omega
  have hd800 : (text.drop 800).take 500 = text.drop 800 :=
    List.take_of_length_le (by omega)
  have hkeep : ∀ l : List Char, l.length ≠ 0 → (∀ c ∈ l, c ∈ text) →
      (!(pyStrip l).isEmpty) = true := by
    intro l hne hsub
    rw [pyStrip_eq_self_of_all l (fun c hc => hws c (hsub c hc))]
    cases l with
    | nil => simp at hne
    | cons a t => rfl
  have k1 := hkeep (text.take 500) (by omega) (fun c hc => List.take_subset _ _ hc)
  have k2 := hkeep ((text.drop 400).take 500) (by omega)
    (fun c hc => List.drop_subset _ _ (List.take_subset _ _ hc))
  have k3 := hkeep (text.drop 800) (by omega) (fun c hc => List.drop_subset _ _ hc)
  refine ⟨?_, h1len, h2len, h3len, ?_, ?_⟩
  · rw [chunk_text_no_sep text 500 100 hgt hsubs, hardSlice_1200 text hlen, hd800]
    simp only [List.filter_cons, k1, k2, k3, if_true, List.filter_nil]
  · rw [List.drop_take, List.take_take]
    norm_num
  · rw [List.drop_take, List.drop_drop]

/-- Witness for C9: the amended theorem applied to 1200 letters `a`. -/
theorem C9_amended_hard_slice_witness :
    chunk_text (List.replicate 1200 'a') 500 100 =
        [(List.replicate 1200 'a').take 500,
          ((List.replicate 1200 'a').drop 400).take 500,
          (List.replicate 1200 'a').drop 800] ∧
      ((List.replicate 1200 'a').take 500).length = 500 ∧
      (((List.replicate 1200 'a').drop 400).take 500).length = 500 ∧
      ((List.replicate 1200 'a').drop 800).length = 400 ∧
      ((List.replicate 1200 'a').take 500).drop 400 =
        (((List.replicate 1200 'a').drop 400).take 500).take 100 ∧
      (((List.replicate 1200 'a').drop 400).take 500).drop 400 =
        ((List.replicate 1200 'a').drop 800).take 100 :=
  C9_amended_hard_slice (List.replicate 1200 'a') (List.length_replicate ..)
    (fun c hc => by rw [List.eq_of_mem_replicate hc]; rfl)
